import Mathlib

/-!
Shallow embedding of `units/provisioning_setup_host.go` (the host-provisioning
setup job).  Pure data and control flow are translated directly from the Go
source; every external side effect (cloud API, remote SSH/SCP command, database
write, queue submission) is resolved by an explicit oracle `Env` describing the
outcome of each call, and is recorded in an effect trace.  Context cancellation
is not modelled (`ctx.Err()` is assumed nil throughout).
-/

namespace ProvisioningSetupHost

/-- Bootstrap methods from `distro.BootstrapSettings.Method`.  The Go switch
handles `None`, `UserData` and `SSH`; any other value falls through the switch
to the script-copy section, represented here by `other`. -/
inductive BootstrapMethod
  | none
  | userData
  | ssh
  | other
  deriving DecidableEq, Repr

/-- Host statuses from the `evergreen` status constants that this file reads or
writes.  `provisioned` is the terminal success status persisted by
`MarkAsProvisioned`, `provisionedNotRunning` by `SetProvisionedNotRunning`, and
`unprovisioned` by `SetUnprovisioned`. -/
inductive HostStatus
  | starting
  | provisioning
  | provisionedNotRunning
  | provisioned
  | running
  | unprovisioned
  | terminated
  deriving DecidableEq, Repr

/-- The distro fields this job's control flow reads.  Script file names and the
remote user are not modelled (they only affect log fields and path strings). -/
structure Distro where
  bootstrapMethod : BootstrapMethod
  setup : String
  teardown : String
  isWindows : Bool
  deriving DecidableEq, Repr

/-- `host.SpawnOptions` (only the flag read by this job). -/
structure SpawnOptions where
  spawnedByTask : Bool
  deriving DecidableEq, Repr

/-- `host.ProvisionOptions` (`h.ProvisionOptions` is a nullable pointer in Go,
modelled as `Option ProvisionOptions` on the host). -/
structure ProvisionOptions where
  loadCLI : Bool
  ownerId : String
  taskId : String
  deriving DecidableEq, Repr

/-- The `host.Host` fields this job reads or mutates.  `host` is the DNS name
(Go field `h.Host`), `lctUpdated` records whether `UpdateLastCommunicated`
succeeded during the run (the wall-clock value itself is not modelled). -/
structure Host where
  id : String
  status : HostStatus
  provisioned : Bool
  provisionAttempts : Nat
  distro : Distro
  spawnOptions : SpawnOptions
  provisionOptions : Option ProvisionOptions
  host : String
  ip : String
  lctUpdated : Bool
  deriving DecidableEq, Repr

/-- Which script a `copyScript` call is staging: the Windows service-user setup
script, the distro setup script, or the distro teardown script. -/
inductive ScriptTag
  | serviceUser
  | setup
  | teardown
  deriving DecidableEq, Repr

/-- The remote commands this job can issue over SSH/SCP. -/
inductive RemoteOp
  | credentialWrite
  | serviceUserRun
  | fetchJasper
  | scpScript (tag : ScriptTag)
  | mkdirShell
  | curlClient
  | configFileTransfer
  | spawnSetupScript
  | taskDataFetch
  deriving DecidableEq, Repr

/-- Observable side effects of a run.  A `remote` effect carries the per-call
deadline in seconds that the Go code wraps around the command's context
(`none` when the call site installs no deadline of its own). -/
inductive Effect
  | remote (op : RemoteOp) (timeoutSecs : Option Nat)
  | cloudGetDNS
  | cloudOnUp
  | eventProvisionFailed
  | eventHostProvisionError
  | enqueue (id : String) (delaySecs : Nat)
  | tempFileCreate (tag : ScriptTag)
  | tempFileRemove (tag : ScriptTag)
  deriving DecidableEq, Repr

/-- `scpTimeout = time.Minute`, in seconds. -/
def scpTimeout : Nat := 60

/-- `provisionRetryLimit = 15`. -/
def provisionRetryLimit : Nat := 15

/-- `setupHostJobName = "provisioning-setup-host"`. -/
def setupHostJobName : String := "provisioning-setup-host"

/-- Outcome oracle for one `copyScript` call: whether each of its fallible
local steps succeeds (`GetSSHInfo`, `ioutil.TempFile`, `os.Chmod`,
`expandScript`, `io.WriteString`, `GetSSHOptions`) and whether the remote scp
command succeeds. -/
structure CopyEnv where
  sshInfoOk : Bool
  tempFileOk : Bool
  chmodOk : Bool
  expandOk : Bool
  writeOk : Bool
  sshOptionsOk : Bool
  scpOk : Bool
  deriving DecidableEq, Repr

deriving instance DecidableEq for Except

/-- Outcome oracle for a whole run: one field per external call the job can
make, fixing that call's result.  `getDNSName` is the cloud manager's answer
(error, or a DNS string); `refreshedDistro` is the distro document returned by
`distro.FindOne` in the spawn-host branch. -/
structure Env where
  getManagerOptionsOk : Bool
  getManagerOk : Bool
  getDNSName : Except Unit String
  setDNSNameOk : Bool
  onUpOk : Bool
  updateLastCommunicatedOk : Bool
  setProvisionedNotRunningOk : Bool
  sshOptionsOk : Bool
  serviceUserCmdsOk : Bool
  copyServiceUser : CopyEnv
  serviceUserRunOk : Bool
  genCredsOk : Bool
  writeCmdsOk : Bool
  credWriteOk : Bool
  credSaveOk : Bool
  fetchJasperOk : Bool
  copySetup : CopyEnv
  copyTeardown : CopyEnv
  deleteCredsOk : Bool
  setUnprovisionedOk : Bool
  markAsProvisionedOk : Bool
  findOwnerOk : Bool
  sshInfoOk : Bool
  mkdirOk : Bool
  curlOk : Bool
  writeTempOk : Bool
  scpYmlOk : Bool
  findDistroOk : Bool
  refreshedDistro : Distro
  spawnSetupOk : Bool
  fetchTaskOk : Bool
  queueStarted : Bool
  queuePutOk : Bool
  deriving DecidableEq, Repr

/-- Mutable world threaded through the run: the host record and the number of
credential records stored for this host in the credential store (the store is
keyed by host id, so it holds zero or one record for the host). -/
structure St where
  host : Host
  creds : Nat
  deriving DecidableEq, Repr

/-- Result of one embedded Go function: the returned error (modelled as
`Except Unit Unit`), the world after the call, and the effects it emitted, in
order. -/
abbrev Res := Except Unit Unit × St × List Effect

/-- Shallow embedding of `copyScript` (both the `setupHostJob` method at line
488 and the free function at line 411 — their control flow is identical).
Returns the error, the emitted effects, and whether the local temporary file
still exists when the call returns.  The cleanup `defer` is registered only
after the `os.Chmod` check, so a chmod failure returns with the temporary file
created but never removed; on every path after that the deferred close/remove
runs. -/
def copyScript (cenv : CopyEnv) (tag : ScriptTag) :
    Except Unit Unit × List Effect × Bool :=
  if !cenv.sshInfoOk then (.error (), [], false)
  else if !cenv.tempFileOk then (.error (), [], false)
  else if !cenv.chmodOk then (.error (), [.tempFileCreate tag], true)
  else
    let inner : Except Unit Unit × List Effect :=
      if !cenv.expandOk then (.error (), [])
      else if !cenv.writeOk then (.error (), [])
      else if !cenv.sshOptionsOk then (.error (), [])
      else if cenv.scpOk then (.ok (), [.remote (.scpScript tag) (some scpTimeout)])
      else (.error (), [.remote (.scpScript tag) (some scpTimeout)])
    (inner.1, [.tempFileCreate tag] ++ inner.2 ++ [.tempFileRemove tag], false)

/-- Shallow embedding of `setDNSName`: return immediately when the host's DNS
name is already set; otherwise query the cloud manager, accept an empty answer
when the host has an IP address, and persist a non-empty answer via
`host.SetDNSName` (modelled from the spec: persistence success updates the
in-memory DNS name, failure returns an error leaving it unchanged). -/
def setDNSName (env : Env) (st : St) : Res :=
  if st.host.host ≠ "" then (.ok (), st, [])
  else
    match env.getDNSName with
    | .error _ => (.error (), st, [.cloudGetDNS])
    | .ok hostDNS =>
      if hostDNS = "" then
        if st.host.ip ≠ "" then (.ok (), st, [.cloudGetDNS])
        else (.error (), st, [.cloudGetDNS])
      else if env.setDNSNameOk then
        (.ok (), { st with host := { st.host with host := hostDNS } }, [.cloudGetDNS])
      else (.error (), st, [.cloudGetDNS])

/-- Shallow embedding of `setupServiceUser`: a no-op on non-Windows distros;
otherwise build the service-user commands, stage them with `copyScript`, and
run the staged script remotely (`RunSSHCommand`, no per-call deadline at this
call site). -/
def setupServiceUser (env : Env) (st : St) : Res :=
  if !st.host.distro.isWindows then (.ok (), st, [])
  else if !env.serviceUserCmdsOk then (.error (), st, [])
  else
    match copyScript env.copyServiceUser .serviceUser with
    | (.error _, tr, _) => (.error (), st, tr)
    | (.ok _, tr, _) =>
      if env.serviceUserRunOk then (.ok (), st, tr ++ [.remote .serviceUserRun Option.none])
      else (.error (), st, tr ++ [.remote .serviceUserRun Option.none])

/-- Shallow embedding of `putJasperCredentials`: generate credentials, build
the remote write commands, run them over SSH under `scpTimeout`, and only
after that remote write succeeds save the bundle to the credential store
(`SaveJasperCredentials`, modelled from the spec as storing exactly one record
keyed by the host id). -/
def putJasperCredentials (env : Env) (st : St) : Res :=
  if !env.genCredsOk then (.error (), st, [])
  else if !env.writeCmdsOk then (.error (), st, [])
  else if !env.credWriteOk then
    (.error (), st, [.remote .credentialWrite (some scpTimeout)])
  else if !env.credSaveOk then
    (.error (), st, [.remote .credentialWrite (some scpTimeout)])
  else
    (.ok (), { st with creds := 1 }, [.remote .credentialWrite (some scpTimeout)])

/-- Shallow embedding of `doFetchAndReinstallJasper`: one
`RunSSHCommandLiterally` call (no per-call deadline at this call site). -/
def doFetchAndReinstallJasper (env : Env) (st : St) : Res :=
  if env.fetchJasperOk then (.ok (), st, [.remote .fetchJasper Option.none])
  else (.error (), st, [.remote .fetchJasper Option.none])

/-- Shallow embedding of `setupJasper`: get SSH options, then run
`setupServiceUser`, `putJasperCredentials` and `doFetchAndReinstallJasper` in
sequence, aborting on the first error. -/
def setupJasper (env : Env) (st : St) : Res :=
  if !env.sshOptionsOk then (.error (), st, [])
  else
    match setupServiceUser env st with
    | (.error _, st, tr) => (.error (), st, tr)
    | (.ok _, st, tr) =>
      match putJasperCredentials env st with
      | (.error _, st', tr') => (.error (), st', tr ++ tr')
      | (.ok _, st', tr') =>
        match doFetchAndReinstallJasper env st' with
        | (r, st'', tr'') => (r, st'', tr ++ tr' ++ tr'')

/-- The tail of `runHostSetup` (lines 289-314): skip all distro scripts for
task-spawned hosts; otherwise copy the non-empty distro setup script and then
the non-empty teardown script, aborting on the first error.  `tr` is the trace
accumulated so far by `runHostSetup`. -/
def copyScriptsStep (env : Env) (st : St) (tr : List Effect) : Res :=
  if st.host.spawnOptions.spawnedByTask then (.ok (), st, tr)
  else
    match (if st.host.distro.setup ≠ "" then copyScript env.copySetup .setup
           else (.ok (), [], false)) with
    | (.error _, trS, _) => (.error (), st, tr ++ trS)
    | (.ok _, trS, _) =>
      match (if st.host.distro.teardown ≠ "" then copyScript env.copyTeardown .teardown
             else (.ok (), [], false)) with
      | (.error _, trT, _) => (.error (), st, tr ++ trS ++ trT)
      | (.ok _, trT, _) => (.ok (), st, tr ++ trS ++ trT)

/-- Shallow embedding of `runHostSetup`: get the cloud manager, resolve the
DNS name, run the cloud `OnUp` callback, branch on the bootstrap method
(`None` is a no-op, `UserData` best-effort-updates the last-communicated time
and sets ProvisionedNotRunning, `SSH` runs `setupJasper`, any other method
falls through the switch), then run `copyScriptsStep` for the distro
setup/teardown scripts. -/
def runHostSetup (env : Env) (st : St) : Res :=
  if !env.getManagerOptionsOk then (.error (), st, [])
  else if !env.getManagerOk then (.error (), st, [])
  else
    match setDNSName env st with
    | (.error _, st, tr) => (.error (), st, tr)
    | (.ok _, st, tr) =>
      let tr := tr ++ [.cloudOnUp]
      if !env.onUpOk then (.error (), st, tr)
      else
        match st.host.distro.bootstrapMethod with
        | .none => (.ok (), st, tr)
        | .userData =>
          let st := if env.updateLastCommunicatedOk
            then { st with host := { st.host with lctUpdated := true } } else st
          if !env.setProvisionedNotRunningOk then (.error (), st, tr)
          else
            (.ok (), { st with host := { st.host with status := .provisionedNotRunning } }, tr)
        | .ssh =>
          match setupJasper env st with
          | (.error _, st, tr') => (.error (), st, tr ++ tr')
          | (.ok _, st, tr') => copyScriptsStep env st (tr ++ tr')
        | .other => copyScriptsStep env st tr

/-- Shallow embedding of `loadClient`: requires provision options with an
owner, resolves the owner, then issues the remote mkdir/profile setup under a
30s deadline, the client-binary curl under a 120s deadline, writes the owner's
settings to a local temp file, and transfers `.evergreen.yml` under a 30s
deadline. -/
def loadClient (env : Env) (st : St) : Res :=
  match st.host.provisionOptions with
  | Option.none => (.error (), st, [])
  | some opts =>
    if opts.ownerId = "" then (.error (), st, [])
    else if !env.findOwnerOk then (.error (), st, [])
    else if !env.sshInfoOk then (.error (), st, [])
    else if !env.sshOptionsOk then (.error (), st, [])
    else if !env.mkdirOk then (.error (), st, [.remote .mkdirShell (some 30)])
    else if !env.curlOk then
      (.error (), st, [.remote .mkdirShell (some 30), .remote .curlClient (some 120)])
    else if !env.writeTempOk then
      (.error (), st, [.remote .mkdirShell (some 30), .remote .curlClient (some 120)])
    else if !env.scpYmlOk then
      (.error (), st, [.remote .mkdirShell (some 30), .remote .curlClient (some 120),
        .remote .configFileTransfer (some 30)])
    else
      (.ok (), st, [.remote .mkdirShell (some 30), .remote .curlClient (some 120),
        .remote .configFileTransfer (some 30)])

/-- Shallow embedding of `fetchRemoteTaskData`: one remote fetch command under
a 15-minute (900s) deadline. -/
def fetchRemoteTaskData (env : Env) (st : St) : Res :=
  if !env.sshInfoOk then (.error (), st, [])
  else if !env.sshOptionsOk then (.error (), st, [])
  else if env.fetchTaskOk then (.ok (), st, [.remote .taskDataFetch (some 900)])
  else (.error (), st, [.remote .taskDataFetch (some 900)])

/-- Shallow embedding of `shouldRetryProvisioning`. -/
def shouldRetryProvisioning (h : Host) : Bool :=
  decide (h.provisionAttempts ≤ provisionRetryLimit) &&
    decide (h.status = .provisioning) && !h.provisioned

/-- `host.SetUnprovisioned`, modelled from the spec: persist status
Unprovisioned.  Every Go call site wraps its error in a log message only, so a
persistence failure leaves the status unchanged and is otherwise ignored. -/
def setUnprovisioned (env : Env) (st : St) : St :=
  if env.setUnprovisionedOk then
    { st with host := { st.host with status := .unprovisioned } }
  else st

/-- `host.MarkAsProvisioned` at the end of `provisionHost`, modelled from the
spec: persist provisioned=true (with the provision timestamp) and the
Provisioned status; its persistence error is returned. -/
def markAsProvisionedStep (env : Env) (st : St) (tr : List Effect) : Res :=
  if env.markAsProvisionedOk then
    (.ok (),
     { st with host := { st.host with status := .provisioned, provisioned := true } }, tr)
  else (.error (), st, tr)

/-- `h.IncProvisionAttempts` at the top of `provisionHost` (modelled from the
spec: the in-memory count is bumped; a persistence failure is only logged). -/
def incAttempts (st : St) : St :=
  { st with host := { st.host with provisionAttempts := st.host.provisionAttempts + 1 } }

/-- Shallow embedding of `provisionHost`: increment the attempt count (its
persistence failure is only logged; modelled from the spec as always bumping
the in-memory count), run `runHostSetup`, and classify: on error either retry
silently (`shouldRetryProvisioning`) or emit a provisioning-failed event, set
the host Unprovisioned and surface the error; on success return early for
UserData hosts, run the spawn-host client-loading branch when requested
(each of its failures sets the host Unprovisioned; the task-artifact fetch is
best-effort), and finally mark the host provisioned. -/
def provisionHost (env : Env) (st : St) : Res :=
  let st : St := incAttempts st
  match runHostSetup env st with
  | (.error _, st, tr) =>
    if shouldRetryProvisioning st.host then (.ok (), st, tr)
    else (.error (), setUnprovisioned env st, tr ++ [.eventProvisionFailed])
  | (.ok _, st, tr) =>
    if st.host.distro.bootstrapMethod = .userData then (.ok (), st, tr)
    else
      match st.host.provisionOptions with
      | some opts =>
        if opts.loadCLI then
          match loadClient env st with
          | (.error _, st, tr') => (.error (), setUnprovisioned env st, tr ++ tr')
          | (.ok _, st, tr') =>
            let tr := tr ++ tr'
            if !env.sshOptionsOk then (.error (), setUnprovisioned env st, tr)
            else if !env.findDistroOk then (.error (), setUnprovisioned env st, tr)
            else
              let st : St := { st with host := { st.host with distro := env.refreshedDistro } }
              let tr := tr ++ [.remote .spawnSetupScript Option.none]
              if !env.spawnSetupOk then
                (.error (), setUnprovisioned env st, tr ++ [.eventProvisionFailed])
              else
                let fetched : List Effect :=
                  if opts.ownerId ≠ "" ∧ opts.taskId ≠ "" then
                    (fetchRemoteTaskData env st).2.2
                  else []
                markAsProvisionedStep env st (tr ++ fetched)
        else markAsProvisionedStep env st tr
      | Option.none => markAsProvisionedStep env st tr

/-- Shallow embedding of `setupHost`: run `provisionHost`; on error emit the
host-provision-error event, best-effort delete the Jasper credentials for SSH
hosts, and log — both the retrying and the finished branch then return nil, so
`setupHost` never surfaces the provisioning error. -/
def setupHost (env : Env) (st : St) : Res :=
  match provisionHost env st with
  | (.error _, st, tr) =>
    let st : St :=
      if st.host.distro.bootstrapMethod = .ssh then
        (if env.deleteCredsOk then { st with creds := 0 } else st)
      else st
    (.ok (), st, tr ++ [.eventHostProvisionError])
  | (.ok _, st, tr) => (.ok (), st, tr)

/-- The job id built by `NewHostSetupJob` from the id suffix
`fmt.Sprintf("attempt-%d", ...)` passed by `tryRequeue`. -/
def hostSetupJobId (h : Host) : String :=
  setupHostJobName ++ "." ++ h.id ++ "." ++ "attempt-" ++ toString h.provisionAttempts

/-- Shallow embedding of `tryRequeue`: when the (final) host should retry and
the remote queue is started, build a follow-up job for the same host with a
one-minute `WaitUntil` delay and an attempt-scoped id and put it on the queue;
a put failure is logged and added to the job's errors.  Returns whether a
non-nil error was added. -/
def tryRequeue (env : Env) (st : St) : Bool × List Effect :=
  if shouldRetryProvisioning st.host && env.queueStarted then
    (!env.queuePutOk, [.enqueue (hostSetupJobId st.host) 60])
  else (false, [])

/-- The idempotency guard of `Run`: skip when the host is already Running or
provisioned. -/
def skipCond (h : Host) : Bool :=
  decide (h.status = .running) || h.provisioned

/-- Outcome of one `Run`: skipped by the idempotency check, or executed with
or without a job error. -/
inductive Outcome
  | skip
  | ran (hasError : Bool)
  deriving DecidableEq, Repr

/-- Shallow embedding of `Run` with the host attached (as built by
`NewHostSetupJob`): the idempotency skip check, then `setupHost` with its
error added to the job, then the deferred `tryRequeue`. -/
def run (env : Env) (st : St) : Outcome × St × List Effect :=
  if skipCond st.host then (.skip, st, [])
  else
    match setupHost env st with
    | (r, st, tr) =>
      match tryRequeue env st with
      | (enqErr, tr') => (.ran (!r.isOk || enqErr), st, tr ++ tr')

/-- `n` consecutive runs of the job against the same oracle. -/
def runN (env : Env) : Nat → St → St
  | 0, st => st
  | n + 1, st => runN env n (run env st).2.1

/-- The per-call deadline (seconds) that the Go source actually installs for
each class of remote command (`none`: the call site wraps no deadline of its
own around the inherited context). -/
def actualDeadline : RemoteOp → Option Nat
  | .credentialWrite => some scpTimeout
  | .serviceUserRun => Option.none
  | .fetchJasper => Option.none
  | .scpScript _ => some scpTimeout
  | .mkdirShell => some 30
  | .curlClient => some 120
  | .configFileTransfer => some 30
  | .spawnSetupScript => Option.none
  | .taskDataFetch => some 900

/-- Which script file (if any) an effect belongs to. -/
def effTag : Effect → Option ScriptTag
  | .remote (.scpScript t) _ => some t
  | .tempFileCreate t => some t
  | .tempFileRemove t => some t
  | _ => Option.none

/-- An effect is a queue submission. -/
def isEnqueueEff : Effect → Bool
  | .enqueue _ _ => true
  | _ => false

/-- A remote effect carries exactly the deadline its call site installs. -/
def deadlineOK : Effect → Bool
  | .remote op d => d == actualDeadline op
  | _ => true

/-- Effects that every sub-operation of the job may emit: correct per-class
deadlines and no queue submission (only `tryRequeue` enqueues). -/
def effOK (e : Effect) : Bool := deadlineOK e && !isEnqueueEff e


theorem copyScript_effects (cenv : CopyEnv) (tag : ScriptTag) :
    ∀ e ∈ (copyScript cenv tag).2.1, effTag e = some tag ∧ effOK e = true := by
  rcases cenv with ⟨a, b, c, d, f, g, h⟩
  cases tag <;> cases a <;> cases b <;> cases c <;> cases d <;> cases f <;> cases g <;>
    cases h <;> decide

theorem setupServiceUser_st (env : Env) (st : St) :
    (setupServiceUser env st).2.1 = st := by
  unfold setupServiceUser
  split
  · rfl
  split
  · rfl
  rcases copyScript env.copyServiceUser .serviceUser with ⟨u | u, tr, lft⟩
  · rfl
  · split
    · rfl
    · split <;> rfl

theorem setupServiceUser_effects (env : Env) (st : St) :
    ∀ e ∈ (setupServiceUser env st).2.2,
      (effTag e = some .serviceUser ∨ effTag e = Option.none) ∧ effOK e = true := by
  have htr := copyScript_effects env.copyServiceUser .serviceUser
  intro e he
  unfold setupServiceUser at he
  split at he
  · simp at he
  split at he
  · simp at he
  rcases hc : copyScript env.copyServiceUser .serviceUser with ⟨u | u, tr, lft⟩ <;>
    rw [hc] at htr he
  · exact ⟨Or.inl (htr e he).1, (htr e he).2⟩
  · have he' : e ∈ tr ++ [Effect.remote RemoteOp.serviceUserRun Option.none] := by
      by_cases hr : env.serviceUserRunOk = true <;> simpa [hr] using he
    rcases List.mem_append.mp he' with h' | h'
    · exact ⟨Or.inl (htr e h').1, (htr e h').2⟩
    · simp at h'
      subst h'
      decide

theorem putJasperCredentials_host (env : Env) (st : St) :
    (putJasperCredentials env st).2.1.host = st.host := by
  unfold putJasperCredentials
  split <;> (try rfl) <;> split <;> (try rfl) <;> split <;> (try rfl) <;> split <;> rfl

theorem putJasperCredentials_effects (env : Env) (st : St) :
    ∀ e ∈ (putJasperCredentials env st).2.2, effTag e = Option.none ∧ effOK e = true := by
  intro e he
  unfold putJasperCredentials at he
  split at he <;> (try (split at he)) <;> (try (split at he)) <;> (try (split at he)) <;>
    fin_cases he <;> decide

theorem doFetchAndReinstallJasper_st (env : Env) (st : St) :
    (doFetchAndReinstallJasper env st).2.1 = st := by
  unfold doFetchAndReinstallJasper; split <;> rfl

theorem doFetchAndReinstallJasper_effects (env : Env) (st : St) :
    ∀ e ∈ (doFetchAndReinstallJasper env st).2.2, effTag e = Option.none ∧ effOK e = true := by
  intro e he
  unfold doFetchAndReinstallJasper at he
  split at he <;> fin_cases he <;> decide

theorem setDNSName_frame (env : Env) (st : St) :
    ∃ d, (setDNSName env st).2.1 = { st with host := { st.host with host := d } } := by
  unfold setDNSName
  repeat (first | exact ⟨_, rfl⟩ | split)

theorem setDNSName_trace (env : Env) (st : St) :
    (setDNSName env st).2.2 = [] ∨ (setDNSName env st).2.2 = [.cloudGetDNS] := by
  unfold setDNSName
  repeat (first | exact Or.inl rfl | exact Or.inr rfl | split)

theorem setupJasper_host (env : Env) (st : St) :
    (setupJasper env st).2.1.host = st.host := by
  unfold setupJasper
  split
  · rfl
  rcases h1 : setupServiceUser env st with ⟨u | u, st1, tr1⟩ <;>
    (have e1 : st1 = st := by
      have := setupServiceUser_st env st; rw [h1] at this; exact this) <;>
    simp only [h1]
  · rw [e1]
  rcases h2 : putJasperCredentials env st1 with ⟨v | v, st2, tr2⟩ <;>
    (have e2 : st2.host = st1.host := by
      have := putJasperCredentials_host env st1; rw [h2] at this; exact this) <;>
    simp only [h2]
  · rw [e2, e1]
  rcases h3 : doFetchAndReinstallJasper env st2 with ⟨w, st3, tr3⟩
  have e3 : st3 = st2 := by
    have := doFetchAndReinstallJasper_st env st2; rw [h3] at this; exact this
  simp only [h3]
  rw [e3, e2, e1]

theorem setupJasper_effects (env : Env) (st : St) :
    ∀ e ∈ (setupJasper env st).2.2,
      (effTag e = some .serviceUser ∨ effTag e = Option.none) ∧ effOK e = true := by
  intro e he
  unfold setupJasper at he
  split at he
  · simp at he
  rcases h1 : setupServiceUser env st with ⟨u | u, st1, tr1⟩ <;> simp only [h1] at he
  · exact setupServiceUser_effects env st e (by rw [h1]; exact he)
  rcases h2 : putJasperCredentials env st1 with ⟨v | v, st2, tr2⟩ <;> simp only [h2] at he
  · rcases List.mem_append.mp he with h' | h'
    · exact setupServiceUser_effects env st e (by rw [h1]; exact h')
    · have := putJasperCredentials_effects env st1 e (by rw [h2]; exact h')
      exact ⟨Or.inr this.1, this.2⟩
  rcases h3 : doFetchAndReinstallJasper env st2 with ⟨w, st3, tr3⟩
  simp only [h3] at he
  rcases List.mem_append.mp he with h' | h'
  · rcases List.mem_append.mp h' with h'' | h''
    · exact setupServiceUser_effects env st e (by rw [h1]; exact h'')
    · have := putJasperCredentials_effects env st1 e (by rw [h2]; exact h'')
      exact ⟨Or.inr this.1, this.2⟩
  · have := doFetchAndReinstallJasper_effects env st2 e (by rw [h3]; exact h')
    exact ⟨Or.inr this.1, this.2⟩

theorem loadClient_st (env : Env) (st : St) :
    (loadClient env st).2.1 = st := by
  unfold loadClient
  rcases st.host.provisionOptions with _ | opts
  · rfl
  · repeat (first | rfl | split)

theorem loadClient_effects (env : Env) (st : St) :
    ∀ e ∈ (loadClient env st).2.2, effTag e = Option.none ∧ effOK e = true := by
  intro e he
  unfold loadClient at he
  rcases hpo : st.host.provisionOptions with _ | opts <;> simp only [hpo] at he
  · simp at he
  · repeat' split at he
    all_goals fin_cases he <;> decide

theorem fetchRemoteTaskData_st (env : Env) (st : St) :
    (fetchRemoteTaskData env st).2.1 = st := by
  unfold fetchRemoteTaskData
  repeat (first | rfl | split)

theorem fetchRemoteTaskData_effects (env : Env) (st : St) :
    ∀ e ∈ (fetchRemoteTaskData env st).2.2, effTag e = Option.none ∧ effOK e = true := by
  intro e he
  unfold fetchRemoteTaskData at he
  repeat' split at he
  all_goals fin_cases he <;> decide

theorem copyScriptsStep_spawned (env : Env) (st : St) (tr : List Effect)
    (h : st.host.spawnOptions.spawnedByTask = true) :
    copyScriptsStep env st tr = (.ok (), st, tr) := by
  unfold copyScriptsStep
  rw [if_pos h]

theorem copyScriptsStep_st (env : Env) (st : St) (tr : List Effect) :
    (copyScriptsStep env st tr).2.1 = st := by
  unfold copyScriptsStep
  split
  · rfl
  rcases hc1 : (if st.host.distro.setup ≠ "" then copyScript env.copySetup .setup
      else (.ok (), [], false)) with ⟨r1 | r1, trS, l1⟩
  · rfl
  rcases hc2 : (if st.host.distro.teardown ≠ "" then copyScript env.copyTeardown .teardown
      else (.ok (), [], false)) with ⟨r2 | r2, trT, l2⟩
  · rfl
  · rfl

theorem copyScriptsStep_effects (env : Env) (st : St) (tr : List Effect) :
    ∀ e ∈ (copyScriptsStep env st tr).2.2,
      e ∈ tr ∨ ((effTag e = some .setup ∨ effTag e = some .teardown) ∧ effOK e = true) := by
  intro e he
  unfold copyScriptsStep at he
  split at he
  · exact Or.inl he
  rcases hc1 : (if st.host.distro.setup ≠ "" then copyScript env.copySetup .setup
      else (.ok (), [], false)) with ⟨r1, trS, l1⟩
  have htrS : ∀ e ∈ trS, effTag e = some .setup ∧ effOK e = true := by
    by_cases hs : st.host.distro.setup ≠ ""
    · rw [if_pos hs] at hc1
      intro e he'
      exact copyScript_effects env.copySetup .setup e (by rw [hc1]; exact he')
    · rw [if_neg hs] at hc1
      cases hc1
      intro e he'
      simp at he'
  simp only [hc1] at he
  rcases r1 with u | u
  · rcases List.mem_append.mp he with h' | h'
    · exact Or.inl h'
    · exact Or.inr ⟨Or.inl (htrS e h').1, (htrS e h').2⟩
  rcases hc2 : (if st.host.distro.teardown ≠ "" then copyScript env.copyTeardown .teardown
      else (.ok (), [], false)) with ⟨r2, trT, l2⟩
  have htrT : ∀ e ∈ trT, effTag e = some .teardown ∧ effOK e = true := by
    by_cases hs : st.host.distro.teardown ≠ ""
    · rw [if_pos hs] at hc2
      intro e he'
      exact copyScript_effects env.copyTeardown .teardown e (by rw [hc2]; exact he')
    · rw [if_neg hs] at hc2
      cases hc2
      intro e he'
      simp at he'
  simp only [hc2] at he
  have hmem : e ∈ tr ++ trS ++ trT := by
    rcases r2 with v | v <;> exact he
  rcases List.mem_append.mp hmem with h' | h'
  · rcases List.mem_append.mp h' with h'' | h''
    · exact Or.inl h''
    · exact Or.inr ⟨Or.inl (htrS e h'').1, (htrS e h'').2⟩
  · exact Or.inr ⟨Or.inr (htrT e h').1, (htrT e h').2⟩

theorem runHostSetup_frame (env : Env) (st : St) :
    (runHostSetup env st).2.1.host.id = st.host.id ∧
    (runHostSetup env st).2.1.host.provisionAttempts = st.host.provisionAttempts ∧
    (runHostSetup env st).2.1.host.provisioned = st.host.provisioned ∧
    (runHostSetup env st).2.1.host.distro = st.host.distro ∧
    (runHostSetup env st).2.1.host.spawnOptions = st.host.spawnOptions := by
  unfold runHostSetup
  split
  · exact ⟨rfl, rfl, rfl, rfl, rfl⟩
  split
  · exact ⟨rfl, rfl, rfl, rfl, rfl⟩
  rcases hd : setDNSName env st with ⟨r1, st1, tr1⟩
  obtain ⟨d, hframe⟩ := setDNSName_frame env st
  rw [hd] at hframe
  have e1 : st1 = { st with host := { st.host with host := d } } := hframe
  subst e1
  rcases r1 with u | u
  · exact ⟨rfl, rfl, rfl, rfl, rfl⟩
  dsimp only
  split
  · exact ⟨rfl, rfl, rfl, rfl, rfl⟩
  split
  · exact ⟨rfl, rfl, rfl, rfl, rfl⟩
  · split <;> split <;> exact ⟨rfl, rfl, rfl, rfl, rfl⟩
  · rcases hj : setupJasper env { st with host := { st.host with host := d } }
      with ⟨r2, st2, tr2⟩
    have e2 : st2.host = { st.host with host := d } := by
      have := setupJasper_host env { st with host := { st.host with host := d } }
      rw [hj] at this; exact this
    rcases r2 with v | v <;> dsimp only
    · rw [e2]
      exact ⟨rfl, rfl, rfl, rfl, rfl⟩
    · rw [copyScriptsStep_st, e2]
      exact ⟨rfl, rfl, rfl, rfl, rfl⟩
  · rw [copyScriptsStep_st]
    exact ⟨rfl, rfl, rfl, rfl, rfl⟩

theorem runHostSetup_userData (env : Env) (st : St)
    (hm : st.host.distro.bootstrapMethod = .userData) :
    (runHostSetup env st).1 = .ok () →
    (runHostSetup env st).2.1.host.status = .provisionedNotRunning ∧
    (runHostSetup env st).2.1.host.lctUpdated
      = (st.host.lctUpdated || env.updateLastCommunicatedOk) := by
  unfold runHostSetup
  split
  · intro h; simp at h
  split
  · intro h; simp at h
  rcases hd : setDNSName env st with ⟨r1, st1, tr1⟩
  obtain ⟨d, hframe⟩ := setDNSName_frame env st
  rw [hd] at hframe
  have e1 : st1 = { st with host := { st.host with host := d } } := hframe
  subst e1
  rcases r1 with u | u
  · intro h; simp at h
  dsimp only
  split
  · intro h; simp at h
  rw [hm]
  dsimp only
  split
  · intro h; simp at h
  · intro _
    refine ⟨rfl, ?_⟩
    split <;> rename_i hflag <;> simp [hflag]

theorem runHostSetup_effects (env : Env) (st : St) :
    ∀ e ∈ (runHostSetup env st).2.2,
      effOK e = true ∧
      (st.host.spawnOptions.spawnedByTask = true →
        effTag e ≠ some .setup ∧ effTag e ≠ some .teardown) := by
  have conv : ∀ e, (effTag e = some ScriptTag.serviceUser ∨ effTag e = Option.none) →
      effTag e ≠ some ScriptTag.setup ∧ effTag e ≠ some ScriptTag.teardown := by
    intro e h
    rcases h with h | h <;> rw [h] <;> exact ⟨by simp, by simp⟩
  rcases hd : setDNSName env st with ⟨r1, st1, tr1⟩
  obtain ⟨d, hframe⟩ := setDNSName_frame env st
  rw [hd] at hframe
  have e1 : st1 = { st with host := { st.host with host := d } } := hframe
  subst e1
  have htr1 : tr1 = [] ∨ tr1 = [.cloudGetDNS] := by
    have := setDNSName_trace env st; rw [hd] at this; exact this
  have base : ∀ e ∈ tr1 ++ [Effect.cloudOnUp], effOK e = true ∧ effTag e = Option.none := by
    rcases htr1 with h | h <;> subst h <;> intro e he <;> simp at he
    · subst he; decide
    · rcases he with he | he <;> subst he <;> decide
  intro e he
  unfold runHostSetup at he
  split at he
  · simp at he
  split at he
  · simp at he
  rcases r1 with u | u <;> simp only [hd] at he
  · have hb : e ∈ tr1 ++ [Effect.cloudOnUp] := by
      rcases htr1 with h | h <;> subst h <;> simp at he ⊢ <;> simp [he]
    exact ⟨(base e hb).1, fun _ => conv e (Or.inr (base e hb).2)⟩
  try dsimp only at he
  split at he
  · exact ⟨(base e he).1, fun _ => conv e (Or.inr (base e he).2)⟩
  rcases hbm : st.host.distro.bootstrapMethod with _ | _ | _ | _ <;> simp only [hbm] at he
  · exact ⟨(base e he).1, fun _ => conv e (Or.inr (base e he).2)⟩
  · split at he <;>
      exact ⟨(base e he).1, fun _ => conv e (Or.inr (base e he).2)⟩
  · rcases hj : setupJasper env { st with host := { st.host with host := d } }
      with ⟨r2, st2, tr2⟩
    have e2 : st2.host = { st.host with host := d } := by
      have := setupJasper_host env { st with host := { st.host with host := d } }
      rw [hj] at this; exact this
    have hjeff : ∀ e ∈ tr2,
        (effTag e = some ScriptTag.serviceUser ∨ effTag e = Option.none) ∧ effOK e = true := by
      intro e he'
      exact setupJasper_effects env _ e (by rw [hj]; exact he')
    have bigbase : ∀ e ∈ tr1 ++ [Effect.cloudOnUp] ++ tr2,
        effOK e = true ∧
          (effTag e = some ScriptTag.serviceUser ∨ effTag e = Option.none) := by
      intro e he'
      rcases List.mem_append.mp he' with h' | h'
      · exact ⟨(base e h').1, Or.inr (base e h').2⟩
      · exact ⟨(hjeff e h').2, (hjeff e h').1⟩
    rcases r2 with v | v <;> simp only [hj] at he <;> try dsimp only at he
    · exact ⟨(bigbase e he).1, fun _ => conv e (bigbase e he).2⟩
    · have espawn : st2.host.spawnOptions.spawnedByTask
          = st.host.spawnOptions.spawnedByTask := by rw [e2]
      by_cases hsp : st2.host.spawnOptions.spawnedByTask = true
      · rw [copyScriptsStep_spawned env st2 _ hsp] at he
        exact ⟨(bigbase e he).1, fun _ => conv e (bigbase e he).2⟩
      · rcases copyScriptsStep_effects env st2 _ e he with h' | h'
        · exact ⟨(bigbase e h').1, fun _ => conv e (bigbase e h').2⟩
        · refine ⟨h'.2, fun hsp' => absurd (espawn ▸ hsp') hsp⟩
  · by_cases hsp : st.host.spawnOptions.spawnedByTask = true
    · have hsp' : ({ st with host := { st.host with host := d } } : St).host.spawnOptions.spawnedByTask = true := hsp
      rw [copyScriptsStep_spawned env _ _ hsp'] at he
      exact ⟨(base e he).1, fun _ => conv e (Or.inr (base e he).2)⟩
    · rcases copyScriptsStep_effects env _ _ e he with h' | h'
      · exact ⟨(base e h').1, fun _ => conv e (Or.inr (base e h').2)⟩
      · exact ⟨h'.2, fun hsp' => absurd hsp' hsp⟩

theorem setUnprovisioned_attempts (env : Env) (st : St) :
    (setUnprovisioned env st).host.provisionAttempts = st.host.provisionAttempts := by
  unfold setUnprovisioned; split <;> rfl

theorem markAsProvisionedStep_trace (env : Env) (st : St) (tr : List Effect) :
    (markAsProvisionedStep env st tr).2.2 = tr := by
  unfold markAsProvisionedStep; split <;> rfl

theorem markAsProvisionedStep_attempts (env : Env) (st : St) (tr : List Effect) :
    (markAsProvisionedStep env st tr).2.1.host.provisionAttempts
      = st.host.provisionAttempts := by
  unfold markAsProvisionedStep; split <;> rfl

theorem provisionHost_attempts (env : Env) (st : St) :
    (provisionHost env st).2.1.host.provisionAttempts = st.host.provisionAttempts + 1 := by
  unfold provisionHost
  dsimp only
  rcases hrs : runHostSetup env (incAttempts st) with ⟨r, st2, tr2⟩
  have hfr := runHostSetup_frame env (incAttempts st)
  rw [hrs] at hfr
  have h2 : st2.host.provisionAttempts = st.host.provisionAttempts + 1 := hfr.2.1
  rcases r with u | u <;> dsimp only
  · split
    · exact h2
    · dsimp only
      rw [setUnprovisioned_attempts]
      exact h2
  · split
    · exact h2
    rcases hpo : st2.host.provisionOptions with _ | opts <;> simp only [hpo]
    · rw [markAsProvisionedStep_attempts]
      exact h2
    split
    · rcases hl : loadClient env st2 with ⟨rl, st3, tr3⟩
      have e3 : st3 = st2 := by
        have := loadClient_st env st2; rw [hl] at this; exact this
      subst e3
      rcases rl with v | v <;> try dsimp only
      · rw [setUnprovisioned_attempts]
        exact h2
      · split
        · dsimp only
          rw [setUnprovisioned_attempts]
          exact h2
        split
        · dsimp only
          rw [setUnprovisioned_attempts]
          exact h2
        try dsimp only
        split
        · dsimp only
          rw [setUnprovisioned_attempts]
          exact h2
        · rw [markAsProvisionedStep_attempts]
          exact h2
    · rw [markAsProvisionedStep_attempts]
      exact h2

theorem setupHost_ok (env : Env) (st : St) : (setupHost env st).1 = .ok () := by
  unfold setupHost
  rcases provisionHost env st with ⟨r | r, st2, tr2⟩ <;> rfl

theorem setupHost_host (env : Env) (st : St) :
    (setupHost env st).2.1.host = (provisionHost env st).2.1.host := by
  unfold setupHost
  rcases hp : provisionHost env st with ⟨r | r, st2, tr2⟩
  · dsimp only
    split
    · split <;> rfl
    · rfl
  · rfl

theorem setupHost_effects (env : Env) (st : St) :
    ∀ e ∈ (setupHost env st).2.2,
      e ∈ (provisionHost env st).2.2 ∨ e = Effect.eventHostProvisionError := by
  rcases hp : provisionHost env st with ⟨r | r, st2, tr2⟩ <;>
    intro e he <;> unfold setupHost at he <;> simp only [hp] at he
  · have he' : e ∈ tr2 ++ [Effect.eventHostProvisionError] := he
    rcases List.mem_append.mp he' with h' | h'
    · exact Or.inl h'
    · simp at h'
      exact Or.inr h'
  · exact Or.inl he

theorem provisionHost_userData (env : Env) (st : St)
    (hm : st.host.distro.bootstrapMethod = .userData)
    (hok : (runHostSetup env (incAttempts st)).1 = .ok ()) :
    provisionHost env st
      = (.ok (), (runHostSetup env (incAttempts st)).2.1,
          (runHostSetup env (incAttempts st)).2.2) := by
  unfold provisionHost
  dsimp only
  rcases hrs : runHostSetup env (incAttempts st) with ⟨r, st2, tr2⟩
  have hfr := runHostSetup_frame env (incAttempts st)
  rw [hrs] at hfr
  rw [hrs] at hok
  rcases r with u | u
  · exact absurd hok (by simp)
  · dsimp only
    rw [if_pos]
    · have : st2.host.distro = (incAttempts st).host.distro := hfr.2.2.2.1
      rw [this]
      exact hm

theorem provisionHost_effects (env : Env) (st : St) :
    ∀ e ∈ (provisionHost env st).2.2,
      effOK e = true ∧
      (st.host.spawnOptions.spawnedByTask = true →
        effTag e ≠ some .setup ∧ effTag e ≠ some .teardown) := by
  rcases hrs : runHostSetup env (incAttempts st) with ⟨r, st2, tr2⟩
  have hrseff : ∀ e ∈ tr2,
      effOK e = true ∧
        (st.host.spawnOptions.spawnedByTask = true →
          effTag e ≠ some ScriptTag.setup ∧ effTag e ≠ some ScriptTag.teardown) := by
    intro e he
    exact runHostSetup_effects env (incAttempts st) e (by rw [hrs]; exact he)
  intro e he
  unfold provisionHost at he
  dsimp only at he
  rcases r with u | u <;> simp only [hrs] at he
  · split at he
    · exact hrseff e he
    · rcases List.mem_append.mp he with h' | h'
      · exact hrseff e h'
      · simp at h'
        subst h'
        exact ⟨by decide, fun _ => by decide⟩
  · split at he
    · exact hrseff e he
    rcases hpo : st2.host.provisionOptions with _ | opts <;> simp only [hpo] at he
    · rw [markAsProvisionedStep_trace] at he
      exact hrseff e he
    split at he
    · rcases hl : loadClient env st2 with ⟨rl, st3, tr3⟩
      have hleff : ∀ e ∈ tr3, effTag e = Option.none ∧ effOK e = true := by
        intro e he'
        exact loadClient_effects env st2 e (by rw [hl]; exact he')
      have tagl : ∀ e ∈ tr3,
          effOK e = true ∧ (st.host.spawnOptions.spawnedByTask = true →
            effTag e ≠ some ScriptTag.setup ∧ effTag e ≠ some ScriptTag.teardown) := by
        intro e he'
        refine ⟨(hleff e he').2, fun _ => ?_⟩
        rw [(hleff e he').1]
        exact ⟨by simp, by simp⟩
      rcases rl with v | v <;> simp only [hl] at he
      · rcases List.mem_append.mp he with h' | h'
        · exact hrseff e h'
        · exact tagl e h'
      split at he
      · rcases List.mem_append.mp he with h' | h'
        · exact hrseff e h'
        · exact tagl e h'
      split at he
      · rcases List.mem_append.mp he with h' | h'
        · exact hrseff e h'
        · exact tagl e h'
      try dsimp only at he
      split at he
      · rcases List.mem_append.mp he with h' | h'
        · rcases List.mem_append.mp h' with h'' | h''
          · rcases List.mem_append.mp h'' with h3 | h3
            · exact hrseff e h3
            · exact tagl e h3
          · simp at h''
            subst h''
            exact ⟨by decide, fun _ => by decide⟩
        · simp at h'
          subst h'
          exact ⟨by decide, fun _ => by decide⟩
      · rw [markAsProvisionedStep_trace] at he
        rcases List.mem_append.mp he with h' | h'
        · rcases List.mem_append.mp h' with h'' | h''
          · rcases List.mem_append.mp h'' with h3 | h3
            · exact hrseff e h3
            · exact tagl e h3
          · simp at h''
            subst h''
            exact ⟨by decide, fun _ => by decide⟩
        · revert h'
          split
          · intro h'
            have := fetchRemoteTaskData_effects env _ e h'
            refine ⟨this.2, fun _ => ?_⟩
            rw [this.1]
            exact ⟨by simp, by simp⟩
          · intro h'
            simp at h'
    · rw [markAsProvisionedStep_trace] at he
      exact hrseff e he

theorem run_eq (env : Env) (st : St) (hns : skipCond st.host = false) :
    run env st
      = (.ran (!(setupHost env st).1.isOk || (tryRequeue env (setupHost env st).2.1).1),
         (setupHost env st).2.1,
         (setupHost env st).2.2 ++ (tryRequeue env (setupHost env st).2.1).2) := by
  unfold run
  rw [if_neg (by simp [hns])]

theorem tryRequeue_not_taken (env : Env) (st : St)
    (h : (shouldRetryProvisioning st.host && env.queueStarted) = false) :
    tryRequeue env st = (false, []) := by
  unfold tryRequeue
  rw [if_neg (by simp [h])]

theorem tryRequeue_taken (env : Env) (st : St)
    (h : (shouldRetryProvisioning st.host && env.queueStarted) = true) :
    tryRequeue env st = (!env.queuePutOk, [.enqueue (hostSetupJobId st.host) 60]) := by
  unfold tryRequeue
  rw [if_pos h]

theorem run_attempts_eq (env : Env) (st : St) :
    (run env st).2.1.host.provisionAttempts
      = st.host.provisionAttempts + (if skipCond st.host = true then 0 else 1) := by
  by_cases hs : skipCond st.host = true
  · unfold run
    rw [if_pos hs, if_pos hs]
    rfl
  · have hns : skipCond st.host = false := by simpa using hs
    rw [run_eq env st hns, if_neg hs]
    dsimp only
    rw [setupHost_host env st, provisionHost_attempts env st]

/-- A `copyScript` oracle in which every step succeeds. -/
def allOkCopyEnv : CopyEnv := ⟨true, true, true, true, true, true, true⟩

/-- A `copyScript` oracle in which only the `os.Chmod` call fails. -/
def chmodFailCopyEnv : CopyEnv := ⟨true, true, false, true, true, true, true⟩

/-- An SSH-bootstrap distro with no setup or teardown script. -/
def sshDistro : Distro :=
  { bootstrapMethod := .ssh, setup := "", teardown := "", isWindows := false }

/-- An oracle in which every external call succeeds. -/
def allOkEnv : Env :=
  { getManagerOptionsOk := true, getManagerOk := true, getDNSName := .ok "ec2.internal",
    setDNSNameOk := true, onUpOk := true, updateLastCommunicatedOk := true,
    setProvisionedNotRunningOk := true, sshOptionsOk := true, serviceUserCmdsOk := true,
    copyServiceUser := allOkCopyEnv, serviceUserRunOk := true, genCredsOk := true,
    writeCmdsOk := true, credWriteOk := true, credSaveOk := true, fetchJasperOk := true,
    copySetup := allOkCopyEnv, copyTeardown := allOkCopyEnv, deleteCredsOk := true,
    setUnprovisionedOk := true, markAsProvisionedOk := true, findOwnerOk := true,
    sshInfoOk := true, mkdirOk := true, curlOk := true, writeTempOk := true,
    scpYmlOk := true, findDistroOk := true, refreshedDistro := sshDistro,
    spawnSetupOk := true, fetchTaskOk := true, queueStarted := true, queuePutOk := true }

/-- `allOkEnv` except that fetching the cloud manager options fails, so the
bootstrap sequence errors on every run. -/
def mgrFailEnv : Env := { allOkEnv with getManagerOptionsOk := false }

/-- `allOkEnv` except that the remote credential-write command fails. -/
def credWriteFailEnv : Env := { allOkEnv with credWriteOk := false }

/-- A provisioning SSH host with no attempts yet, no DNS name and no IP. -/
def baseHost : Host :=
  { id := "h1", status := .provisioning, provisioned := false, provisionAttempts := 0,
    distro := sshDistro, spawnOptions := ⟨false⟩, provisionOptions := Option.none,
    host := "", ip := "", lctUpdated := false }

/-- `baseHost` with an empty credential store. -/
def baseSt : St := ⟨baseHost, 0⟩

/-- C1: for every host whose status is Running or whose provisioned flag is
true, `Run` returns immediately with outcome skip: the state (host and
credential store) is unchanged and the effect trace is empty, so no remote
command ran, no host field was mutated, and no follow-up job was enqueued. -/
theorem run_skip_no_side_effects (env : Env) (st : St)
    (h : st.host.status = .running ∨ st.host.provisioned = true) :
    run env st = (.skip, st, []) := by
  unfold run
  rw [if_pos]
  rcases h with h | h <;> simp [skipCond, h]

theorem run_skip_no_side_effects_witness :
    run allOkEnv ⟨{ baseHost with status := .running }, 0⟩
      = (.skip, ⟨{ baseHost with status := .running }, 0⟩, []) :=
  run_skip_no_side_effects allOkEnv ⟨{ baseHost with status := .running }, 0⟩ (Or.inl rfl)

/-- C4 counterexample: when `os.Chmod` on the fresh temporary file fails,
`copyScript` returns an error with the temporary file still in existence — the
cleanup `defer` is registered only after the chmod check, so this
post-creation failure path does not delete the file, refuting the claim that
the temporary file is deleted on every exit path after its creation. -/
theorem copyScript_chmod_leak :
    (copyScript chmodFailCopyEnv .setup).1 = .error () ∧
    (copyScript chmodFailCopyEnv .setup).2.2 = true := by decide

/-- C4 amended: the local temporary file survives a `copyScript` call exactly
when the file was created and the subsequent permission change failed; on
every other exit path — success, transfer failure, expansion failure, local
write failure, or failures before the file exists — the file does not remain. -/
theorem copyScript_cleanup (cenv : CopyEnv) (tag : ScriptTag) :
    (copyScript cenv tag).2.2 = (cenv.sshInfoOk && cenv.tempFileOk && !cenv.chmodOk) := by
  rcases cenv with ⟨a, b, c, d, f, g, h⟩
  cases tag <;> cases a <;> cases b <;> cases c <;> cases d <;> cases f <;> cases g <;>
    cases h <;> rfl

/-- C3: starting from an empty store, `putJasperCredentials` stores a record
only after the remote write command succeeds: a failed remote write returns an
error and leaves zero records; a successful write followed by a successful
save returns nil and leaves exactly one record; and any stored record implies
the remote write command ran and succeeded. -/
theorem putJasperCredentials_atomic (env : Env) (st : St) (h0 : st.creds = 0) :
    (env.genCredsOk = true → env.writeCmdsOk = true → env.credWriteOk = false →
      (putJasperCredentials env st).1 = .error () ∧
      (putJasperCredentials env st).2.1.creds = 0) ∧
    (env.genCredsOk = true → env.writeCmdsOk = true → env.credWriteOk = true →
     env.credSaveOk = true →
      (putJasperCredentials env st).1 = .ok () ∧
      (putJasperCredentials env st).2.1.creds = 1) ∧
    ((putJasperCredentials env st).2.1.creds ≠ 0 →
      env.credWriteOk = true ∧
      Effect.remote .credentialWrite (some scpTimeout) ∈ (putJasperCredentials env st).2.2) := by
  unfold putJasperCredentials
  cases hg : env.genCredsOk <;> cases hw : env.writeCmdsOk <;>
    cases hc : env.credWriteOk <;> cases hs : env.credSaveOk <;> simp_all

theorem putJasperCredentials_atomic_witness :
    ((putJasperCredentials credWriteFailEnv baseSt).1 = .error () ∧
      (putJasperCredentials credWriteFailEnv baseSt).2.1.creds = 0) ∧
    ((putJasperCredentials allOkEnv baseSt).1 = .ok () ∧
      (putJasperCredentials allOkEnv baseSt).2.1.creds = 1) :=
  ⟨(putJasperCredentials_atomic credWriteFailEnv baseSt rfl).1 rfl rfl rfl,
   (putJasperCredentials_atomic allOkEnv baseSt rfl).2.1 rfl rfl rfl rfl⟩

/-- C10: `setDNSName` returns success with no cloud query when the host's DNS
name is already set; when the cloud lookup answers with an empty DNS name the
step succeeds exactly when the host has an IP address; and a non-empty
looked-up DNS name is persisted onto the host when the persist succeeds. -/
theorem setDNSName_spec (env : Env) (st : St) :
    (st.host.host ≠ "" → setDNSName env st = (.ok (), st, [])) ∧
    (st.host.host = "" → env.getDNSName = .ok "" → st.host.ip ≠ "" →
      setDNSName env st = (.ok (), st, [.cloudGetDNS])) ∧
    (st.host.host = "" → env.getDNSName = .ok "" → st.host.ip = "" →
      (setDNSName env st).1 = .error ()) ∧
    (∀ dns, st.host.host = "" → env.getDNSName = .ok dns → dns ≠ "" →
      env.setDNSNameOk = true →
      (setDNSName env st).1 = .ok () ∧ (setDNSName env st).2.1.host.host = dns) := by
  refine ⟨?_, ?_, ?_, ?_⟩
  · intro h1
    unfold setDNSName
    rw [if_pos h1]
  · intro h1 h2 h3
    simp [setDNSName, h1, h2, h3]
  · intro h1 h2 h3
    simp [setDNSName, h1, h2, h3]
  · intro dns h1 h2 h3 h4
    simp [setDNSName, h1, h2, h3, h4]

theorem setDNSName_spec_witness :
    (setDNSName allOkEnv ⟨{ baseHost with host := "already.set" }, 0⟩
      = (.ok (), ⟨{ baseHost with host := "already.set" }, 0⟩, [])) ∧
    (setDNSName { allOkEnv with getDNSName := .ok "" } ⟨{ baseHost with ip := "10.0.0.1" }, 0⟩
      = (.ok (), ⟨{ baseHost with ip := "10.0.0.1" }, 0⟩, [.cloudGetDNS])) ∧
    ((setDNSName { allOkEnv with getDNSName := .ok "" } baseSt).1 = .error ()) ∧
    ((setDNSName allOkEnv baseSt).2.1.host.host = "ec2.internal") :=
  ⟨(setDNSName_spec allOkEnv ⟨{ baseHost with host := "already.set" }, 0⟩).1 (by decide),
   (setDNSName_spec { allOkEnv with getDNSName := .ok "" }
      ⟨{ baseHost with ip := "10.0.0.1" }, 0⟩).2.1 rfl rfl (by decide),
   (setDNSName_spec { allOkEnv with getDNSName := .ok "" } baseSt).2.2.1 rfl rfl rfl,
   ((setDNSName_spec allOkEnv baseSt).2.2.2 "ec2.internal" rfl rfl (by decide) rfl).2⟩

/-- `baseHost` after 15 provisioning attempts. -/
def st15 : St := ⟨{ baseHost with provisionAttempts := 15 }, 0⟩

/-- `baseHost` with the UserData bootstrap method. -/
def userDataSt : St :=
  ⟨{ baseHost with distro := { sshDistro with bootstrapMethod := .userData } }, 0⟩

/-- `allOkEnv` except that updating the last-communicated time fails. -/
def lctFailEnv : Env := { allOkEnv with updateLastCommunicatedOk := false }

/-- C2: when the bootstrap sequence (`runHostSetup` on the already-incremented
state) errors, `provisionHost` classifies the failure: the attempt count is
the initial count plus one; if the incremented count is at most 15 and the
host is still Provisioning and not provisioned, the call returns nil and the
status stays Provisioning; otherwise a provisioning-failed event is emitted,
the host is set Unprovisioned (when that persist succeeds) and the error is
surfaced; and for a host still Provisioning and not provisioned, the
transition to Unprovisioned happens exactly when the incremented attempt count
exceeds the retry limit of 15. -/
theorem provisionHost_error_classification (env : Env) (st : St)
    (herr : (runHostSetup env (incAttempts st)).1 = .error ()) :
    ((runHostSetup env (incAttempts st)).2.1.host.provisionAttempts
        = st.host.provisionAttempts + 1) ∧
    (shouldRetryProvisioning (runHostSetup env (incAttempts st)).2.1.host = true →
      (provisionHost env st).1 = .ok () ∧
      (provisionHost env st).2.1.host.status = .provisioning) ∧
    (shouldRetryProvisioning (runHostSetup env (incAttempts st)).2.1.host = false →
      (provisionHost env st).1 = .error () ∧
      Effect.eventProvisionFailed ∈ (provisionHost env st).2.2 ∧
      (env.setUnprovisionedOk = true →
        (provisionHost env st).2.1.host.status = .unprovisioned)) ∧
    (env.setUnprovisionedOk = true →
      (runHostSetup env (incAttempts st)).2.1.host.status = .provisioning →
      (runHostSetup env (incAttempts st)).2.1.host.provisioned = false →
      ((provisionHost env st).2.1.host.status = .unprovisioned ↔
        provisionRetryLimit < (runHostSetup env (incAttempts st)).2.1.host.provisionAttempts)) := by
  rcases hrs : runHostSetup env (incAttempts st) with ⟨r, st2, tr2⟩
  rw [hrs] at herr
  have hfr := runHostSetup_frame env (incAttempts st)
  rw [hrs] at hfr
  rcases r with u | u
  · have hred : provisionHost env st
        = (if shouldRetryProvisioning st2.host then (.ok (), st2, tr2)
           else (.error (), setUnprovisioned env st2, tr2 ++ [.eventProvisionFailed])) := by
      unfold provisionHost
      dsimp only
      rw [hrs]
    refine ⟨hfr.2.1, ?_, ?_, ?_⟩
    · intro hretry
      rw [hred, if_pos hretry]
      refine ⟨rfl, ?_⟩
      unfold shouldRetryProvisioning at hretry
      simp at hretry
      exact hretry.1.2
    · intro hnoretry
      rw [hred, if_neg (by simp [hnoretry])]
      refine ⟨rfl, by simp, ?_⟩
      intro hsu
      unfold setUnprovisioned
      rw [if_pos hsu]
    · intro hsu hstatus hprov
      have hstatus' : st2.host.status = .provisioning := hstatus
      have hprov' : st2.host.provisioned = false := hprov
      by_cases hr : shouldRetryProvisioning st2.host = true
      · rw [hred, if_pos hr]
        constructor
        · intro habs
          have habs' : st2.host.status = .unprovisioned := habs
          rw [hstatus'] at habs'
          exact absurd habs' (by decide)
        · intro hgt
          exfalso
          unfold shouldRetryProvisioning at hr
          simp [provisionRetryLimit] at hr
          obtain ⟨⟨hle, -⟩, -⟩ := hr
          have hgt' : provisionRetryLimit < st2.host.provisionAttempts := hgt
          simp only [provisionRetryLimit] at hgt'
          omega
      · have hr' : shouldRetryProvisioning st2.host = false := by simpa using hr
        rw [hred, if_neg (by simp [hr'])]
        constructor
        · intro _
          show provisionRetryLimit < st2.host.provisionAttempts
          unfold shouldRetryProvisioning at hr'
          simp [hstatus', hprov'] at hr'
          simp only [provisionRetryLimit] at hr' ⊢
          omega
        · intro _
          unfold setUnprovisioned
          rw [if_pos hsu]
  · exact absurd herr (by simp)

theorem provisionHost_error_classification_witness :
    ((provisionHost mgrFailEnv baseSt).1 = .ok () ∧
      (provisionHost mgrFailEnv baseSt).2.1.host.status = .provisioning) ∧
    ((provisionHost mgrFailEnv st15).1 = .error () ∧
      Effect.eventProvisionFailed ∈ (provisionHost mgrFailEnv st15).2.2 ∧
      (provisionHost mgrFailEnv st15).2.1.host.status = .unprovisioned) :=
  ⟨(provisionHost_error_classification mgrFailEnv baseSt rfl).2.1 (by decide),
   ⟨((provisionHost_error_classification mgrFailEnv st15 rfl).2.2.1 (by decide)).1,
    ((provisionHost_error_classification mgrFailEnv st15 rfl).2.2.1 (by decide)).2.1,
    ((provisionHost_error_classification mgrFailEnv st15 rfl).2.2.1 (by decide)).2.2 rfl⟩⟩

/-- C5: for a UserData host, a non-skipped run whose bootstrap sequence
succeeds reports no job error, leaves the host ProvisionedNotRunning (never
Running) and not provisioned, and has updated the last-communicated time
exactly when that best-effort call succeeded — its failure does not fail the
run. -/
theorem run_userData_pending (env : Env) (st : St)
    (hm : st.host.distro.bootstrapMethod = .userData)
    (hns : skipCond st.host = false)
    (hok : (runHostSetup env (incAttempts st)).1 = .ok ()) :
    (run env st).1 = .ran false ∧
    (run env st).2.1.host.status = .provisionedNotRunning ∧
    (run env st).2.1.host.status ≠ .running ∧
    (run env st).2.1.host.provisioned = false ∧
    (run env st).2.1.host.lctUpdated
      = (st.host.lctUpdated || env.updateLastCommunicatedOk) := by
  have hud := runHostSetup_userData env (incAttempts st) hm hok
  have hfr := runHostSetup_frame env (incAttempts st)
  have hph := provisionHost_userData env st hm hok
  have hsu : setupHost env st
      = (.ok (), (runHostSetup env (incAttempts st)).2.1,
          (runHostSetup env (incAttempts st)).2.2) := by
    unfold setupHost
    rw [hph]
  have hprovfalse : st.host.provisioned = false := by
    unfold skipCond at hns
    simp at hns
    exact hns.2
  have hnr : (shouldRetryProvisioning (runHostSetup env (incAttempts st)).2.1.host
      && env.queueStarted) = false := by
    unfold shouldRetryProvisioning
    simp [hud.1]
  rw [run_eq env st hns, hsu]
  dsimp only
  rw [tryRequeue_not_taken env _ hnr]
  refine ⟨rfl, hud.1, ?_, ?_, hud.2⟩
  · intro habs
    have habs' : (runHostSetup env (incAttempts st)).2.1.host.status = .running := habs
    rw [hud.1] at habs'
    exact absurd habs' (by decide)
  · have h1 : (runHostSetup env (incAttempts st)).2.1.host.provisioned
        = (incAttempts st).host.provisioned := hfr.2.2.1
    exact h1.trans hprovfalse

theorem run_userData_pending_witness :
    (run lctFailEnv userDataSt).1 = .ran false ∧
    (run lctFailEnv userDataSt).2.1.host.status = .provisionedNotRunning ∧
    (run lctFailEnv userDataSt).2.1.host.provisioned = false ∧
    (run lctFailEnv userDataSt).2.1.host.lctUpdated = false :=
  have h := run_userData_pending lctFailEnv userDataSt rfl rfl (by decide)
  ⟨h.1, h.2.1, h.2.2.2.1, h.2.2.2.2⟩

/-- A task-spawned SSH host whose distro defines setup and teardown scripts. -/
def spawnTaskSt : St :=
  ⟨{ baseHost with spawnOptions := ⟨true⟩, distro := { sshDistro with setup := "echo hi", teardown := "echo bye" } }, 0⟩

/-- A spawn host with provision options requesting the CLI and a task fetch,
and its DNS name already set. -/
def loadCLISt : St :=
  ⟨{ baseHost with host := "ec2.internal", provisionOptions := some ⟨true, "owner", "task1"⟩ }, 0⟩

/-- C6: for a task-spawned host, no run ever emits a distro setup-script or
teardown-script effect (no staging, transfer or cleanup of either script),
whatever the oracle and the distro's scripts. -/
theorem run_spawnedByTask_no_distro_scripts (env : Env) (st : St)
    (hsp : st.host.spawnOptions.spawnedByTask = true) :
    ∀ e ∈ (run env st).2.2, effTag e ≠ some .setup ∧ effTag e ≠ some .teardown := by
  intro e he
  by_cases hs : skipCond st.host = true
  · unfold run at he
    rw [if_pos hs] at he
    simp at he
  · have hns : skipCond st.host = false := by simpa using hs
    rw [run_eq env st hns] at he
    rcases List.mem_append.mp he with h' | h'
    · rcases setupHost_effects env st e h' with h'' | h''
      · exact (provisionHost_effects env st e h'').2 hsp
      · subst h''
        exact ⟨by simp [effTag], by simp [effTag]⟩
    · unfold tryRequeue at h'
      revert h'
      split
      · intro h'
        simp at h'
        subst h'
        exact ⟨by simp [effTag], by simp [effTag]⟩
      · intro h'
        simp at h'

theorem run_spawnedByTask_no_distro_scripts_witness :
    effTag (Effect.remote .credentialWrite (some 60)) ≠ some ScriptTag.setup ∧
    effTag (Effect.remote .credentialWrite (some 60)) ≠ some ScriptTag.teardown :=
  run_spawnedByTask_no_distro_scripts allOkEnv spawnTaskSt rfl
    (Effect.remote .credentialWrite (some 60)) (by decide)

/-- C7: a skipped run leaves the attempt count unchanged and a non-skipped run
increments it by exactly one, whatever happens afterwards; the count never
decreases; and N consecutive non-skipped runs take it from the initial value
to the initial value plus N. -/
theorem run_attempt_count (env : Env) (st : St) :
    ((run env st).2.1.host.provisionAttempts
      = st.host.provisionAttempts + (if skipCond st.host = true then 0 else 1)) ∧
    st.host.provisionAttempts ≤ (run env st).2.1.host.provisionAttempts ∧
    (∀ n : Nat,
      (∀ k, k < n → skipCond ((runN env k st).host) = false) →
      (runN env n st).host.provisionAttempts = st.host.provisionAttempts + n) := by
  refine ⟨run_attempts_eq env st, ?_, ?_⟩
  · rw [run_attempts_eq env st]
    split <;> omega
  · intro n
    induction n generalizing st with
    | zero => intro _; rfl
    | succ m ih =>
      intro hall
      have h0 : skipCond st.host = false := hall 0 (Nat.succ_pos m)
      have hstep : (run env st).2.1.host.provisionAttempts
          = st.host.provisionAttempts + 1 := by
        rw [run_attempts_eq env st, h0]
        simp
      have ih' := ih (run env st).2.1 (fun k hk => hall (k + 1) (Nat.succ_lt_succ hk))
      have hdef : runN env (m + 1) st = runN env m (run env st).2.1 := rfl
      rw [hdef, ih', hstep]
      omega

theorem run_attempt_count_witness :
    (runN mgrFailEnv 2 baseSt).host.provisionAttempts
      = baseSt.host.provisionAttempts + 2 :=
  (run_attempt_count mgrFailEnv baseSt).2.2 2 (by decide)

/-- C8: a run submits a follow-up job exactly when it was not skipped, the
final host still satisfies the retry predicate (attempts at most 15, status
Provisioning, not provisioned) and the remote queue is started; the submitted
job is unique, carries a one-minute (60s) not-before delay, and its id is
scoped to the job name, the host id and the current attempt count; no other
part of the run enqueues anything. -/
theorem run_requeue_spec (env : Env) (st : St) :
    (run env st).2.2.filter isEnqueueEff
      = if (skipCond st.host = false ∧
            shouldRetryProvisioning (run env st).2.1.host = true ∧
            env.queueStarted = true)
        then [Effect.enqueue (hostSetupJobId (run env st).2.1.host) 60]
        else [] := by
  by_cases hs : skipCond st.host = true
  · unfold run
    rw [if_pos hs]
    rw [if_neg]
    · rfl
    · rintro ⟨h1, -, -⟩
      rw [hs] at h1
      cases h1
  · have hns : skipCond st.host = false := by simpa using hs
    rw [run_eq env st hns]
    dsimp only
    rw [List.filter_append]
    have hsetup : (setupHost env st).2.2.filter isEnqueueEff = [] := by
      rw [List.filter_eq_nil_iff]
      intro a ha
      rcases setupHost_effects env st a ha with h'' | h''
      · have heo := (provisionHost_effects env st a h'').1
        unfold effOK at heo
        simp at heo ⊢
        exact heo.2
      · subst h''
        decide
    rw [hsetup]
    unfold tryRequeue
    split
    · rename_i hcond
      simp only [Bool.and_eq_true] at hcond
      rw [if_pos ⟨hns, hcond.1, hcond.2⟩]
      simp [isEnqueueEff]
    · rename_i hcond
      rw [if_neg]
      · simp
      · rintro ⟨-, h2, h3⟩
        exact hcond (by rw [Bool.and_eq_true]; exact ⟨h2, h3⟩)

/-- C9 counterexample: on a run that deploys the CLI, the config-file transfer
(the scp of `.evergreen.yml` in `loadClient`) executes under a 30-second
deadline, not the 60 seconds the claim assigns to every file transfer. -/
theorem configFileTransfer_thirty_seconds :
    Effect.remote .configFileTransfer (some 30) ∈ (run allOkEnv loadCLISt).2.2 ∧
    Effect.remote .configFileTransfer (some 60) ∉ (run allOkEnv loadCLISt).2.2 ∧
    (30 : Nat) ≠ 60 := by decide

/-- C9 amended: every remote effect of a run carries exactly the deadline its
call site installs: 60s for the credential write and every script copy, 30s
for the mkdir/profile shell setup and for the config-file transfer, 120s for
the client-binary download, 900s for the task-artifact fetch, and no per-call
deadline for the service-user run, the agent fetch/reinstall, and the
spawn-host setup command. -/
theorem run_remote_deadlines (env : Env) (st : St) :
    ∀ op d, Effect.remote op d ∈ (run env st).2.2 → d = actualDeadline op := by
  intro op d he
  by_cases hs : skipCond st.host = true
  · unfold run at he
    rw [if_pos hs] at he
    simp at he
  · have hns : skipCond st.host = false := by simpa using hs
    rw [run_eq env st hns] at he
    rcases List.mem_append.mp he with h' | h'
    · rcases setupHost_effects env st _ h' with h'' | h''
      · have heo := (provisionHost_effects env st _ h'').1
        unfold effOK deadlineOK at heo
        simp at heo
        exact heo.1
      · simp at h''
    · unfold tryRequeue at h'
      revert h'
      split
      · intro h'
        simp at h'
      · intro h'
        simp at h'

theorem run_remote_deadlines_witness :
    some 30 = actualDeadline RemoteOp.configFileTransfer :=
  run_remote_deadlines allOkEnv loadCLISt .configFileTransfer (some 30) (by decide)

end ProvisioningSetupHost
